/-
Verification of the WSSI API serving/alerting layer.

Shallow embedding of the Python sources:
  - wssi-api/alerting/wssi_monitor.py  (threshold-to-severity classification,
    threshold checking over a WSSI snapshot)
  - wssi-api/main.py                   (rate limiting, API-key verification and
    issuance, brief-model tier redaction, archive retention, JSON loading with
    fallbacks, synthetic history)

Numeric values that are Python floats in the source are modelled as rationals;
timestamps are modelled as natural-number epoch seconds (dates as integer day
indices).  SQLite tables are modelled as Lean lists of row structures, the
filesystem as explicit lookup functions or path lists.
-/
import Mathlib

namespace WSSI

/-! ### Alert monitor: severity classification (wssi_monitor.get_alert_severity)

The thresholds dictionary may or may not contain each key, so each threshold is
an `Option ℚ`; `Option.getD` models Python `dict.get(key, default)`. -/

structure SeverityThresholds where
  critical : Option ℚ
  approaching : Option ℚ
  watch : Option ℚ
  deriving Repr, DecidableEq

def get_alert_severity (value : ℚ) (thresholds : SeverityThresholds) : String :=
  if thresholds.critical.getD 2 ≤ value then "critical"
  else if thresholds.approaching.getD (3/2) ≤ value then "approaching"
  else if thresholds.watch.getD 1 ≤ value then "watch"
  else "stable"

/-! ### Alert monitor: threshold checking (wssi_monitor.check_thresholds)

The monitor configuration `thresholds` dictionary is modelled with one optional
entry per key actually read by the source.  The human-readable `message`
field of an alert (an f-string rendering of the value) is presentation only
and is not modelled. -/

structure MonitorThresholds where
  wssi_critical : Option ℚ
  wssi_approaching : Option ℚ
  wssi_watch : Option ℚ
  theme_critical : Option ℚ
  theme_approaching : Option ℚ
  theme_watch : Option ℚ
  deriving Repr, DecidableEq

/-- Dynamic lookup `thresholds.get(f"wssi_{severity}", 1.0)` from the source. -/
def MonitorThresholds.lookup (t : MonitorThresholds) (key : String) : Option ℚ :=
  if key = "wssi_critical" then t.wssi_critical
  else if key = "wssi_approaching" then t.wssi_approaching
  else if key = "wssi_watch" then t.wssi_watch
  else if key = "theme_critical" then t.theme_critical
  else if key = "theme_approaching" then t.theme_approaching
  else if key = "theme_watch" then t.theme_watch
  else none

structure ThemeSignal where
  theme_name : String
  normalized_value : ℚ
  deriving Repr, DecidableEq

structure WssiSnapshot where
  wssi_value : ℚ
  theme_signals : List ThemeSignal
  deriving Repr, DecidableEq

structure MonitorAlert where
  type_ : String
  severity : String
  theme_id : Option String
  value : ℚ
  threshold : ℚ
  deriving Repr, DecidableEq

def check_thresholds (wssi_data : WssiSnapshot) (thresholds : MonitorThresholds) :
    List MonitorAlert :=
  let wssi_value := |wssi_data.wssi_value|
  let wssi_severity := get_alert_severity wssi_value
    ⟨some (thresholds.wssi_critical.getD 2),
     some (thresholds.wssi_approaching.getD (3/2)),
     some (thresholds.wssi_watch.getD 1)⟩
  let wssiAlerts : List MonitorAlert :=
    if wssi_severity ≠ "stable" then
      [{ type_ := "wssi_threshold", severity := wssi_severity, theme_id := none,
         value := wssi_value,
         threshold := (thresholds.lookup ("wssi_" ++ wssi_severity)).getD 1 }]
    else []
  -- Note: the source reads `theme_approaching` for the critical cutoff of the
  -- per-theme severity dictionary (it never reads `theme_critical` there).
  let themeAlerts : List MonitorAlert :=
    wssi_data.theme_signals.flatMap (fun theme =>
      let norm_value := |theme.normalized_value|
      let theme_severity := get_alert_severity norm_value
        ⟨some (thresholds.theme_approaching.getD 2),
         some (thresholds.theme_approaching.getD (3/2)),
         some (thresholds.theme_watch.getD 1)⟩
      if theme_severity ≠ "stable" then
        [{ type_ := "theme_threshold", severity := theme_severity,
           theme_id := some theme.theme_name, value := norm_value,
           threshold := (thresholds.lookup ("theme_" ++ theme_severity)).getD 1 }]
      else [])
  wssiAlerts ++ themeAlerts

/-! ### Tier tables and tier normalization (main.py)

`TIER_RATE_LIMITS` is a Python dict; it is modelled as an `Option`-valued
lookup.  `normalize_tier` models `str(tier or default).strip().lower()`
followed by the membership test against `SUPPORTED_TIERS`. -/

def TIER_RATE_LIMITS (tier : String) : Option ℤ :=
  if tier = "free" then some 0
  else if tier = "basic" then some 1000
  else if tier = "pro" then some 1000
  else if tier = "enterprise" then some 999999999
  else none

def SUPPORTED_TIERS : List String := ["free", "basic", "pro", "enterprise"]

/-- Python `str.strip` whitespace test, for the characters that occur in this
embedding. -/
def isStripped (c : Char) : Bool :=
  c = ' ' || c = '\t' || c = '\n' || c = '\r'

/-- Python `str.strip()` (executable over the character list). -/
def pyStrip (s : String) : String :=
  ⟨((s.data.dropWhile isStripped).reverse.dropWhile isStripped).reverse⟩

/-- Python `str.lower()` for ASCII (executable over the character list). -/
def pyLower (s : String) : String :=
  ⟨s.data.map (fun c =>
    if 'A' ≤ c ∧ c ≤ 'Z' then Char.ofNat (c.toNat + 32) else c)⟩

def normalize_tier (tier : Option String) (default : String := "free") : String :=
  let base := match tier with
    | none => default
    | some s => if s = "" then default else s
  let normalized := pyLower (pyStrip base)
  if normalized ∈ SUPPORTED_TIERS then normalized else default

def rate_limit_for_tier (tier : Option String) : ℤ :=
  (TIER_RATE_LIMITS (normalize_tier tier)).getD ((TIER_RATE_LIMITS "free").getD 0)

/-! ### Rate limiting (main.py check_rate_limit)

Time is epoch seconds.  `datetime.utcnow() + timedelta(days=1)` followed by
`replace(hour=0, minute=0, second=0, microsecond=0)` is midnight of the next
UTC day. The single `rate_limits` row for a key is `Option RateLimitRow`
(`none` when the key has no row yet); the function returns the allowed flag,
the `RateLimitInfo` and the row as left in the table. -/

def secondsPerDay : ℕ := 86400

def nextMidnight (now : ℕ) : ℕ := (now / secondsPerDay + 1) * secondsPerDay

structure RateLimitInfo where
  limit : ℤ
  remaining : ℤ
  reset_at : ℕ
  deriving Repr, DecidableEq

structure RateLimitRow where
  requests_count : ℕ
  reset_at : ℕ
  deriving Repr, DecidableEq

def check_rate_limit (now : ℕ) (limit : ℤ) (row? : Option RateLimitRow) :
    Bool × RateLimitInfo × Option RateLimitRow :=
  let reset_at := nextMidnight now
  if limit ≤ 0 then
    (false, ⟨limit, 0, reset_at⟩, row?)
  else
    match row? with
    | some row =>
      if row.reset_at ≤ now then
        -- reset period: stored count becomes 1, local current_count is 0
        (true, ⟨limit, max 0 (limit - 0), reset_at⟩, some ⟨1, reset_at⟩)
      else if limit ≤ (row.requests_count : ℤ) then
        -- rate limited: row untouched, stored reset time reported
        (false, ⟨limit, 0, row.reset_at⟩, some row)
      else
        -- increment
        (true, ⟨limit, max 0 (limit - (row.requests_count + 1 : ℕ)), reset_at⟩,
         some ⟨row.requests_count + 1, row.reset_at⟩)
    | none =>
      -- first request
      (true, ⟨limit, max 0 (limit - 1), reset_at⟩, some ⟨1, reset_at⟩)

/-- Runs `check_rate_limit` over a list of call times against one key row,
threading the stored row; returns the per-call results in order and the final
row. -/
def runCalls (limit : ℤ) (ts : List ℕ) (row? : Option RateLimitRow) :
    List (Bool × RateLimitInfo) × Option RateLimitRow :=
  match ts with
  | [] => ([], row?)
  | t :: rest =>
    let r := check_rate_limit t limit row?
    let tail := runCalls limit rest r.2.2
    ((r.1, r.2.1) :: tail.1, tail.2)

/-! ### API key verification and request authentication (main.py)

`api_keys` rows carry the columns used by `verify_api_key` and
`get_current_key`.  The SHA-256 digest is a library primitive in the source
(`hashlib.sha256(...).hexdigest()`); it is kept abstract as a function
parameter `sha` throughout.  `expires_at` is `Option` epoch seconds
(`NULL` allowed); SQLite `expires_at > datetime('now')` is a strict
comparison. -/

structure ApiKeyRow where
  key_hash : String
  name : String
  tier : String
  rate_limit : ℤ
  is_active : Bool
  expires_at : Option ℕ
  deriving Repr, DecidableEq

/-- Row predicate of the SQL query in `verify_api_key`:
`key_hash = ? AND is_active = 1 AND (expires_at IS NULL OR expires_at > now)`. -/
def keyRowMatches (hash : String) (now : ℕ) (r : ApiKeyRow) : Bool :=
  r.key_hash == hash && r.is_active &&
    (match r.expires_at with
     | none => true
     | some e => now < e)

def verify_api_key (sha : String → String) (table : List ApiKeyRow) (now : ℕ)
    (api_key : String) : Option ApiKeyRow :=
  if api_key = "" then none
  else table.find? (keyRowMatches (sha api_key) now)

/-- Key generation (`generate_api_key`): the random url-safe token is a
parameter.  Returns the plaintext key and its digest. -/
def generate_api_key (sha : String → String) (tier : String) (token : String) :
    String × String :=
  let normalized := normalize_tier (some tier)
  let api_key := "wssi-" ++ normalized ++ "-" ++ token
  (api_key, sha api_key)

/-- Row inserted by key issuance
(`INSERT INTO api_keys (key_hash, name, tier, rate_limit, is_active) VALUES (?, ?, ?, ?, 1)`
in `create_or_update_api_key`): built from the digest alone, never from the
plaintext key. -/
def issued_key_row (key_hash : String) (name : String) (tier : String) : ApiKeyRow :=
  let normalized := normalize_tier (some tier)
  { key_hash := key_hash, name := name, tier := normalized,
    rate_limit := rate_limit_for_tier (some normalized),
    is_active := true, expires_at := none }

def create_or_update_api_key (sha : String → String) (name : String) (tier : String)
    (token : String) : String × ApiKeyRow :=
  let kp := generate_api_key sha (normalize_tier (some tier)) token
  (kp.1, issued_key_row kp.2 name (normalize_tier (some tier)))

structure HTTPError where
  status : ℕ
  code : String
  deriving Repr, DecidableEq

/-- Authentication dependency (`get_current_key`): header check, key lookup,
then rate limiting.  Returns either the HTTP error raised or the key row with
its rate-limit info, together with the rate-limit row as left in the table. -/
def get_current_key (sha : String → String) (table : List ApiKeyRow)
    (rl_row : Option RateLimitRow) (now : ℕ) (x_api_key : Option String) :
    Except HTTPError (ApiKeyRow × RateLimitInfo) × Option RateLimitRow :=
  match x_api_key with
  | none => (Except.error ⟨401, "AUTH_MISSING"⟩, rl_row)
  | some k =>
    if k = "" then (Except.error ⟨401, "AUTH_MISSING"⟩, rl_row)
    else
      match verify_api_key sha table now k with
      | none => (Except.error ⟨401, "AUTH_INVALID"⟩, rl_row)
      | some key_data =>
        let r := check_rate_limit now key_data.rate_limit rl_row
        if r.1 then (Except.ok (key_data, r.2.1), r.2.2)
        else (Except.error ⟨429, "RATE_LIMIT_EXCEEDED"⟩, r.2.2)

/-! ### Opaque JSON payload values

Entries of the report model lists and other pass-through payloads are opaque
JSON values; redaction only truncates lists and never inspects entries. -/

inductive Json where
  | null : Json
  | bool (b : Bool) : Json
  | num (q : ℚ) : Json
  | str (s : String) : Json
  | arr (xs : List Json) : Json
  | obj (fields : List (String × Json)) : Json
  deriving Repr

/-! ### Brief report model and tier redaction (main.py apply_brief_variant)

The model shape is the one produced by `build_brief_archive_model`; the free
variant truncates lists in place and both variants set `tier_context`.  The
`json.loads(json.dumps(model))` round trip is the identity on this data.
The paid tier context dictionary carries only the keys `tier`, `is_paid` and
`report_depth`; the absent keys are modelled as `[]` and `none`. -/

structure TierContext where
  tier : String
  is_paid : Bool
  report_depth : String
  hidden_sections : List String
  upgrade_message : Option String
  deriving Repr, DecidableEq

def paidTierContext : TierContext :=
  { tier := "paid", is_paid := true, report_depth := "full",
    hidden_sections := [], upgrade_message := none }

def freeTierContext : TierContext :=
  { tier := "free", is_paid := false, report_depth := "limited",
    hidden_sections := ["full-correlations", "full-network", "full-patterns",
                        "full-indicator-appendix"],
    upgrade_message := some "Upgrade required for full archive detail." }

structure BriefAlerts where
  counts : Json
  latest_rows : List Json
  deriving Repr

structure BriefNetwork where
  nodes : List Json
  edges : List Json
  deriving Repr

structure IndicatorEntry where
  theme_id : Json
  theme_name : Json
  category : Json
  stress_level : Json
  z_score : Json
  indicator_details : List Json
  deriving Repr

structure BriefModel where
  generated_at : String
  brand_title : String
  wssi_summary : Json
  top_themes : List Json
  alerts : BriefAlerts
  correlations : List Json
  network : BriefNetwork
  patterns : List Json
  indicator_appendix : List IndicatorEntry
  source_labels : Json
  disclaimer : String
  tier_context : Option TierContext
  deriving Repr

def apply_brief_variant (model : BriefModel) (variant : String) : BriefModel :=
  if variant = "paid" then
    { model with tier_context := some paidTierContext }
  else
    { model with
      top_themes := model.top_themes.take 5,
      alerts := { model.alerts with latest_rows := model.alerts.latest_rows.take 3 },
      correlations := model.correlations.take 1,
      network := { model.network with
        nodes := model.network.nodes.take 3,
        edges := model.network.edges.take 2 },
      patterns := model.patterns.take 1,
      indicator_appendix :=
        match model.indicator_appendix.take 1 with
        | [] => []
        | e :: rest =>
          { e with indicator_details := e.indicator_details.take 2 } :: rest,
      tier_context := some freeTierContext }

/-! ### Archive retention (main.py max_archive_releases, enforce_archive_retention)

`brief_releases` is a list of rows as returned by
`SELECT ... ORDER BY published_at DESC` (`published_at` is ISO-8601 text, so
SQLite text order is chronological order).  The filesystem is the list of
existing artifact file paths; `if path.exists(): path.unlink()` is removal
when present.  The sweep of leftover files inside the per-release directory
is additional cleanup of the same release and is not modelled separately. -/

/-- Python `int(raw)` on an already stripped string: an optional sign followed
by at least one decimal digit, else a parse failure (executable over the
character list). -/
def parseDigits (cs : List Char) : Option ℕ :=
  if cs = [] then none
  else if cs.all Char.isDigit then
    some (cs.foldl (fun acc c => acc * 10 + (c.toNat - 48)) 0)
  else none

def pyToInt (s : String) : Option ℤ :=
  match s.data with
  | '-' :: rest => (parseDigits rest).map (fun n => -(n : ℤ))
  | '+' :: rest => (parseDigits rest).map (fun n => (n : ℤ))
  | ds => (parseDigits ds).map (fun n => (n : ℤ))

def max_archive_releases (env : Option String) : ℤ :=
  let raw := pyStrip (env.getD "200")
  let value := (pyToInt raw).getD 200
  max 10 (min value 2000)

structure BriefRelease where
  release_id : String
  -- `published_at` is ISO-8601 text in SQLite; lexicographic text order on
  -- such timestamps is chronological order, modelled as a numeric timestamp.
  published_at : ℕ
  free_html_path : Option String
  paid_html_path : Option String
  free_json_path : Option String
  paid_json_path : Option String
  deriving Repr, DecidableEq

/-- Artifact file paths of one release row (the four path columns, skipping
empty/NULL values as the source does with `if not raw_path: continue`). -/
def releaseArtifacts (r : BriefRelease) : List String :=
  [r.free_html_path, r.paid_html_path, r.free_json_path, r.paid_json_path].filterMap id

def enforce_archive_retention (env : Option String) (rows : List BriefRelease)
    (disk : List String) : List BriefRelease × List String :=
  let keep := (max_archive_releases env).toNat
  let stale := rows.drop keep
  let stalePaths := stale.flatMap releaseArtifacts
  let table := rows.filter (fun r => stale.all (fun s => s.release_id ≠ r.release_id))
  let disk := disk.filter (fun p => p ∉ stalePaths)
  (table, disk)

/-! ### JSON loading with fallback candidates (main.py load_json_candidates)

The filesystem is modelled by an existence predicate and a content function
(`read_json` of a path that exists). -/

def load_json_candidates (exists_ : String → Bool) (content : String → Json) :
    List String → Except HTTPError Json
  | [] => Except.error ⟨503, "DATA_UNAVAILABLE"⟩
  | p :: rest =>
    if exists_ p then Except.ok (content p)
    else load_json_candidates exists_ content rest

/-! ### Synthetic history fallback (main.py get_wssi_history)

Triggered when the history artifact yields no usable rows but the snapshot
loads.  Dates are integer day indices (`today - i`); `round(x, d)` is
modelled with Mathlib `round` at `10 ^ d` scale (half-way ties differ from
Python banker rounding only at exact ties, which does not affect any range
statement). -/

def roundTo (digits : ℕ) (q : ℚ) : ℚ :=
  (round (q * 10 ^ digits) : ℚ) / 10 ^ digits

structure HistoryEntry where
  date : ℤ
  wssi_value : ℚ
  wssi_score : ℚ
  deriving Repr, DecidableEq

structure HistoryResponse where
  history : List HistoryEntry
  count : ℕ
  current : ℚ
  source : String
  deriving Repr, DecidableEq

/-- One synthetic row for loop index `i` (`i` counts down from `days - 1` to 0). -/
def syntheticEntry (current : ℚ) (today : ℤ) (i : ℕ) : HistoryEntry :=
  let variation := ((i % 7 : ℤ) - 3) * (1/10 : ℚ) + ((i % 3 : ℕ) : ℚ) * (1/20 : ℚ)
  let value := roundTo 4 (current + variation)
  { date := today - i,
    wssi_value := value,
    wssi_score := roundTo 2 (max 0 (min 100 (50 + value * 20))) }

def get_wssi_history_fallback (days : ℤ) (current : ℚ) (today : ℤ) :
    HistoryResponse :=
  let daysN := (max 1 days).toNat
  let history := (List.range daysN).map (fun j => syntheticEntry current today (daysN - 1 - j))
  { history := history,
    count := history.length,
    current := current,
    source := "synthetic-fallback" }

/-! ## Theorems -/

/-- C4: `get_alert_severity` returns "critical" iff the value is at least the
critical threshold (default 2.0); otherwise "approaching" iff at least the
approaching threshold (default 1.5); otherwise "watch" iff at least the watch
threshold (default 1.0); otherwise "stable" — a total, deterministic
classification. -/
theorem C4_get_alert_severity_classification (v : ℚ) (t : SeverityThresholds) :
    (get_alert_severity v t = "critical" ↔ t.critical.getD 2 ≤ v) ∧
    (v < t.critical.getD 2 →
      (get_alert_severity v t = "approaching" ↔ t.approaching.getD (3/2) ≤ v)) ∧
    (v < t.critical.getD 2 → v < t.approaching.getD (3/2) →
      (get_alert_severity v t = "watch" ↔ t.watch.getD 1 ≤ v)) ∧
    (v < t.critical.getD 2 → v < t.approaching.getD (3/2) → v < t.watch.getD 1 →
      get_alert_severity v t = "stable") := by
  refine ⟨?_, ?_, ?_, ?_⟩
  · unfold get_alert_severity
    split_ifs with h1 h2 h3 <;> simp_all
  · intro hlt
    unfold get_alert_severity
    split_ifs with h1 h2 h3 <;> simp_all <;> linarith
  · intro hlt hlt2
    unfold get_alert_severity
    split_ifs with h1 h2 h3 <;> simp_all <;> linarith
  · intro hlt hlt2 hlt3
    unfold get_alert_severity
    split_ifs with h1 h2 h3 <;> simp_all <;> linarith

/-- C4 witness: with an empty thresholds dictionary, a value of 1 classifies
as "watch". -/
theorem C4_witness : get_alert_severity 1 ⟨none, none, none⟩ = "watch" := by
  have h := C4_get_alert_severity_classification 1 ⟨none, none, none⟩
  exact (h.2.2.1 (by norm_num) (by norm_num)).mpr (by norm_num)

/-- C2: the free variant truncates `top_themes` to 5, `alerts.latest_rows` to
3, `correlations` to 1, `network.nodes` to 3, `network.edges` to 2,
`patterns` to 1 and `indicator_appendix` to 1 entry whose
`indicator_details` keeps at most 2 items; retained entries are the
corresponding prefix entries of the input, and `tier_context` becomes the
free/limited context. -/
theorem C2_apply_brief_variant_free (m : BriefModel) :
    (apply_brief_variant m "free").top_themes = m.top_themes.take 5 ∧
    (apply_brief_variant m "free").alerts.latest_rows = m.alerts.latest_rows.take 3 ∧
    (apply_brief_variant m "free").alerts.counts = m.alerts.counts ∧
    (apply_brief_variant m "free").correlations = m.correlations.take 1 ∧
    (apply_brief_variant m "free").network.nodes = m.network.nodes.take 3 ∧
    (apply_brief_variant m "free").network.edges = m.network.edges.take 2 ∧
    (apply_brief_variant m "free").patterns = m.patterns.take 1 ∧
    (apply_brief_variant m "free").indicator_appendix =
      (m.indicator_appendix.take 1).map
        (fun e => { e with indicator_details := e.indicator_details.take 2 }) ∧
    (apply_brief_variant m "free").tier_context = some freeTierContext := by
  obtain ⟨g, b, w, tt, al, co, ne, pa, ia, sl, di, tc⟩ := m
  cases ia <;> simp [apply_brief_variant]

/-- C7: the paid variant leaves every report field unchanged and only sets
`tier_context` to the paid/full context. -/
theorem C7_apply_brief_variant_paid (m : BriefModel) :
    (apply_brief_variant m "paid").generated_at = m.generated_at ∧
    (apply_brief_variant m "paid").brand_title = m.brand_title ∧
    (apply_brief_variant m "paid").wssi_summary = m.wssi_summary ∧
    (apply_brief_variant m "paid").top_themes = m.top_themes ∧
    (apply_brief_variant m "paid").alerts = m.alerts ∧
    (apply_brief_variant m "paid").correlations = m.correlations ∧
    (apply_brief_variant m "paid").network = m.network ∧
    (apply_brief_variant m "paid").patterns = m.patterns ∧
    (apply_brief_variant m "paid").indicator_appendix = m.indicator_appendix ∧
    (apply_brief_variant m "paid").source_labels = m.source_labels ∧
    (apply_brief_variant m "paid").disclaimer = m.disclaimer ∧
    (apply_brief_variant m "paid").tier_context =
      some ⟨"paid", true, "full", [], none⟩ := by
  simp [apply_brief_variant, paidTierContext]

/-- C5 configuration: `theme_watch = 1.0`, `theme_approaching = 1.5`,
`theme_critical = 3.0`, no wssi keys. -/
def c5Config : MonitorThresholds :=
  { wssi_critical := none, wssi_approaching := none, wssi_watch := none,
    theme_critical := some 3, theme_approaching := some (3/2),
    theme_watch := some 1 }

/-- C5 snapshot: quiet overall index, one theme at normalized value 2.0. -/
def c5Snapshot : WssiSnapshot :=
  { wssi_value := 0, theme_signals := [{ theme_name := "Governance Decay",
                                         normalized_value := 2 }] }

/-- C5: at the failing input the monitor reports severity "critical" for a
theme whose absolute normalized value 2.0 is strictly below the configured
`theme_critical` threshold 3.0, because the source reads the
`theme_approaching` configuration key for the critical cutoff; the alert even
reports 3.0 as its `threshold` while having compared against 1.5. -/
theorem C5_theme_critical_threshold_ignored :
    check_thresholds c5Snapshot c5Config =
      [{ type_ := "theme_threshold", severity := "critical",
         theme_id := some "Governance Decay", value := 2, threshold := 3 }] ∧
    (2 : ℚ) < (c5Config.theme_critical).getD 2 := by
  constructor
  · norm_num [check_thresholds, c5Snapshot, c5Config, get_alert_severity,
      MonitorThresholds.lookup]
    decide
  · norm_num [c5Config]

/-! ### Rate-limit step lemmas and trace closed form -/

lemma lt_day_bound {t D : ℕ} (h : t / secondsPerDay = D) :
    t < (D + 1) * secondsPerDay := by
  simp only [secondsPerDay] at *
  omega

lemma nextMidnight_of_day {t D : ℕ} (h : t / secondsPerDay = D) :
    nextMidnight t = (D + 1) * secondsPerDay := by
  rw [nextMidnight, h]

lemma check_rate_limit_first (now : ℕ) (L : ℤ) (hL : 0 < L) :
    check_rate_limit now L none =
      (true, ⟨L, max 0 (L - 1), nextMidnight now⟩, some ⟨1, nextMidnight now⟩) := by
  unfold check_rate_limit
  rw [if_neg (by omega : ¬ L ≤ 0)]

lemma check_rate_limit_rollover (now : ℕ) (L : ℤ) (hL : 0 < L)
    (row : RateLimitRow) (h : row.reset_at ≤ now) :
    check_rate_limit now L (some row) =
      (true, ⟨L, L, nextMidnight now⟩, some ⟨1, nextMidnight now⟩) := by
  unfold check_rate_limit
  rw [if_neg (by omega : ¬ L ≤ 0)]
  simp only [if_pos h]
  have : max 0 (L - 0) = L := by omega
  rw [this]

lemma check_rate_limit_blocked (now : ℕ) (L : ℤ) (hL : 0 < L)
    (row : RateLimitRow) (h : now < row.reset_at)
    (hfull : L ≤ (row.requests_count : ℤ)) :
    check_rate_limit now L (some row) =
      (false, ⟨L, 0, row.reset_at⟩, some row) := by
  unfold check_rate_limit
  rw [if_neg (by omega : ¬ L ≤ 0)]
  simp only [if_neg (by omega : ¬ row.reset_at ≤ now), if_pos hfull]

lemma check_rate_limit_increment (now : ℕ) (L : ℤ) (hL : 0 < L)
    (row : RateLimitRow) (h : now < row.reset_at)
    (hroom : (row.requests_count : ℤ) < L) :
    check_rate_limit now L (some row) =
      (true, ⟨L, max 0 (L - ((row.requests_count + 1 : ℕ) : ℤ)), nextMidnight now⟩,
       some ⟨row.requests_count + 1, row.reset_at⟩) := by
  unfold check_rate_limit
  rw [if_neg (by omega : ¬ L ≤ 0)]
  simp only [if_neg (by omega : ¬ row.reset_at ≤ now),
    if_neg (by omega : ¬ L ≤ (row.requests_count : ℤ))]

/-- Expected per-call result for the call at offset `i` made from a stored
count of `k`, within a window whose reset time is `R`. -/
def expectedCall (L : ℤ) (R : ℕ) (k : ℕ) (i : ℕ) : Bool × RateLimitInfo :=
  if ((k + i : ℕ) : ℤ) < L then
    (true, ⟨L, max 0 (L - ((k + i + 1 : ℕ) : ℤ)), R⟩)
  else
    (false, ⟨L, 0, R⟩)

lemma runCalls_from_row (L : ℤ) (hL : 0 < L) (D : ℕ) (ts : List ℕ)
    (hts : ∀ t ∈ ts, t / secondsPerDay = D) :
    ∀ k : ℕ, 1 ≤ k → (k : ℤ) ≤ L →
    runCalls L ts (some ⟨k, (D + 1) * secondsPerDay⟩) =
      ((List.range ts.length).map (expectedCall L ((D + 1) * secondsPerDay) k),
       some ⟨min (k + ts.length) L.toNat, (D + 1) * secondsPerDay⟩) := by
  induction ts with
  | nil =>
    intro k hk1 hkL
    simp only [runCalls, List.length_nil, List.range_zero, List.map_nil]
    have : min (k + 0) L.toNat = k := by omega
    rw [this]
  | cons t rest ih =>
    intro k hk1 hkL
    have hd : t / secondsPerDay = D := hts t (by simp)
    have hrest : ∀ u ∈ rest, u / secondsPerDay = D := fun u hu => hts u (by simp [hu])
    have hlt : t < (D + 1) * secondsPerDay := lt_day_bound hd
    have hnm : nextMidnight t = (D + 1) * secondsPerDay := nextMidnight_of_day hd
    by_cases hcase : (k : ℤ) < L
    · have hstep := check_rate_limit_increment t L hL ⟨k, (D + 1) * secondsPerDay⟩ hlt hcase
      simp only [hnm] at hstep
      simp only [runCalls, hstep]
      rw [ih hrest (k + 1) (by omega) (by omega)]
      simp only [List.length_cons, List.range_succ_eq_map, List.map_cons, List.map_map]
      refine congrArg₂ Prod.mk ?_ ?_
      · refine congrArg₂ List.cons ?_ ?_
        · simp only [expectedCall]
          rw [if_pos (by omega : ((k + 0 : ℕ) : ℤ) < L)]
        · refine List.map_congr_left ?_
          intro i _
          simp only [Function.comp, expectedCall, Nat.succ_eq_add_one]
          have e : k + (i + 1) = k + 1 + i := by omega
          rw [e]
      · have : k + 1 + rest.length = k + (rest.length + 1) := by omega
        rw [this]
    · have hk : (k : ℤ) = L := by omega
      have hstep := check_rate_limit_blocked t L hL ⟨k, (D + 1) * secondsPerDay⟩ hlt
        (by simpa using hk.ge)
      simp only [runCalls, hstep]
      rw [ih hrest k hk1 hkL]
      simp only [List.length_cons, List.range_succ_eq_map, List.map_cons, List.map_map]
      refine congrArg₂ Prod.mk ?_ ?_
      · refine congrArg₂ List.cons ?_ ?_
        · simp only [expectedCall]
          rw [if_neg (by omega : ¬ ((k + 0 : ℕ) : ℤ) < L)]
        · refine List.map_congr_left ?_
          intro i _
          simp only [Function.comp, expectedCall, Nat.succ_eq_add_one]
          rw [if_neg (by omega : ¬ ((k + (i + 1) : ℕ) : ℤ) < L),
            if_neg (by omega : ¬ ((k + i : ℕ) : ℤ) < L)]
      · have : min (k + rest.length) L.toNat = min (k + (rest.length + 1)) L.toNat := by
          omega
        rw [this]

lemma runCalls_from_none (L : ℤ) (hL : 0 < L) (D : ℕ) (ts : List ℕ)
    (hts : ∀ t ∈ ts, t / secondsPerDay = D) :
    runCalls L ts none =
      ((List.range ts.length).map (expectedCall L ((D + 1) * secondsPerDay) 0),
       if ts.length = 0 then none
       else some ⟨min ts.length L.toNat, (D + 1) * secondsPerDay⟩) := by
  cases ts with
  | nil => simp [runCalls]
  | cons t rest =>
    have hd : t / secondsPerDay = D := hts t (by simp)
    have hrest : ∀ u ∈ rest, u / secondsPerDay = D := fun u hu => hts u (by simp [hu])
    have hnm : nextMidnight t = (D + 1) * secondsPerDay := nextMidnight_of_day hd
    have hstep := check_rate_limit_first t L hL
    simp only [hnm] at hstep
    simp only [runCalls, hstep]
    rw [runCalls_from_row L hL D rest hrest 1 le_rfl (by omega)]
    simp only [List.length_cons, List.range_succ_eq_map, List.map_cons, List.map_map,
      if_neg (by omega : ¬ rest.length + 1 = 0)]
    refine congrArg₂ Prod.mk ?_ ?_
    · refine congrArg₂ List.cons ?_ ?_
      · simp only [expectedCall]
        rw [if_pos (by omega : ((0 + 0 : ℕ) : ℤ) < L)]
        norm_num
      · refine List.map_congr_left ?_
        intro i _
        simp only [Function.comp, expectedCall, Nat.succ_eq_add_one]
        have e : (0 : ℕ) + (i + 1) = 1 + i := by omega
        rw [e]
    · have : min (1 + rest.length) L.toNat = min (rest.length + 1) L.toNat := by omega
      rw [this]

/-- C1: for a positive stored limit `L`, a sequence of calls within one reset
window (all call times in day `D`, hence before the stored reset time
`(D + 1) * secondsPerDay`) behaves as a single per-key counter: exactly the
first `L` calls are allowed; each later call is refused with remaining 0 and
the stored reset time; the stored request count never exceeds `L`; and once
the current time reaches the stored reset time, the counter restarts at 1 and
the call is allowed with the next-midnight reset time. -/
theorem C1_rate_limit_counter (L : ℤ) (hL : 0 < L) (D : ℕ) (ts : List ℕ)
    (hts : ∀ t ∈ ts, t / secondsPerDay = D) :
    (∀ i, i < ts.length →
      (((runCalls L ts none).1.getD i (false, ⟨0, 0, 0⟩)).1 = true ↔ (i : ℤ) < L)) ∧
    (∀ i, i < ts.length → L ≤ (i : ℤ) →
      ((runCalls L ts none).1.getD i (false, ⟨0, 0, 0⟩)).2.remaining = 0 ∧
      ((runCalls L ts none).1.getD i (false, ⟨0, 0, 0⟩)).2.reset_at =
        (D + 1) * secondsPerDay) ∧
    (∀ n row, (runCalls L (ts.take n) none).2 = some row →
      (row.requests_count : ℤ) ≤ L) ∧
    (∀ now row, row.reset_at ≤ now →
      check_rate_limit now L (some row) =
        (true, ⟨L, L, nextMidnight now⟩, some ⟨1, nextMidnight now⟩)) := by
  have hform := runCalls_from_none L hL D ts hts
  have hget : ∀ i, i < ts.length →
      (runCalls L ts none).1.getD i (false, ⟨0, 0, 0⟩) =
        expectedCall L ((D + 1) * secondsPerDay) 0 i := by
    intro i hi
    rw [hform]
    rw [List.getD_eq_getElem?_getD, List.getElem?_map, List.getElem?_range hi]
    rfl
  refine ⟨?_, ?_, ?_, ?_⟩
  · intro i hi
    rw [hget i hi]
    unfold expectedCall
    by_cases hc : ((0 + i : ℕ) : ℤ) < L
    · rw [if_pos hc]
      constructor
      · intro _; omega
      · intro _; rfl
    · rw [if_neg hc]
      constructor
      · intro hfalse; cases hfalse
      · intro hiL; omega
  · intro i hi hiL
    rw [hget i hi]
    unfold expectedCall
    rw [if_neg (by omega : ¬ ((0 + i : ℕ) : ℤ) < L)]
    exact ⟨rfl, rfl⟩
  · intro n row hrow
    have htake : ∀ t ∈ ts.take n, t / secondsPerDay = D :=
      fun t ht => hts t (List.mem_of_mem_take ht)
    have h2 := runCalls_from_none L hL D (ts.take n) htake
    rw [h2] at hrow
    by_cases hz : (ts.take n).length = 0
    · rw [if_pos hz] at hrow; cases hrow
    · rw [if_neg hz] at hrow
      have : row = ⟨min (ts.take n).length L.toNat, (D + 1) * secondsPerDay⟩ :=
        (Option.some_inj.mp hrow).symm
      rw [this]
      simp only []
      omega
  · intro now row h
    exact check_rate_limit_rollover now L hL row h

/-- C1 witness: limit 2, three same-day calls — the third call is refused with
remaining 0, and a later call at the reset time is allowed again. -/
theorem C1_witness :
    (((runCalls 2 [10, 20, 30] none).1.getD 2 (false, ⟨0, 0, 0⟩)).1 = false) ∧
    ((runCalls 2 [10, 20, 30] none).1.getD 2 (false, ⟨0, 0, 0⟩)).2.remaining = 0 ∧
    check_rate_limit 86400 2 (some ⟨2, 86400⟩) =
      (true, ⟨2, 2, nextMidnight 86400⟩, some ⟨1, nextMidnight 86400⟩) := by
  have h := C1_rate_limit_counter 2 (by omega) 0 [10, 20, 30] (by decide)
  refine ⟨?_, ?_, ?_⟩
  · have h1 := h.1 2 (by decide)
    by_cases hb : ((runCalls 2 [10, 20, 30] none).1.getD 2 (false, ⟨0, 0, 0⟩)).1 = true
    · exfalso
      have := h1.mp hb
      omega
    · simpa using hb
  · exact (h.2.1 2 (by decide) (by omega)).1
  · exact h.2.2.2 86400 ⟨2, 86400⟩ (by decide)

lemma check_rate_limit_nonpos (now : ℕ) (L : ℤ) (row? : Option RateLimitRow)
    (h : L ≤ 0) :
    check_rate_limit now L row? = (false, ⟨L, 0, nextMidnight now⟩, row?) := by
  unfold check_rate_limit
  rw [if_pos h]

/-- C3: the free tier is stored with rate limit 0; `check_rate_limit` refuses
any non-positive limit without touching the stored counter row; hence for any
valid key whose stored rate limit is non-positive (as every issued free-tier
key is), the very first authenticated request is rejected with HTTP 429 and
code RATE_LIMIT_EXCEEDED. -/
theorem C3_free_tier_first_request_rejected :
    TIER_RATE_LIMITS "free" = some 0 ∧
    rate_limit_for_tier (some "free") = 0 ∧
    (∀ sha name tier token, normalize_tier (some tier) = "free" →
      (create_or_update_api_key sha name tier token).2.rate_limit = 0) ∧
    (∀ now L row?, L ≤ 0 →
      check_rate_limit now L row? = (false, ⟨L, 0, nextMidnight now⟩, row?)) ∧
    (∀ sha table rl_row now k key_data,
      verify_api_key sha table now k = some key_data →
      key_data.rate_limit ≤ 0 →
      get_current_key sha table rl_row now (some k) =
        (Except.error ⟨429, "RATE_LIMIT_EXCEEDED"⟩, rl_row)) := by
  refine ⟨rfl, by decide, ?_, ?_, ?_⟩
  · intro sha name tier token h
    simp only [create_or_update_api_key, issued_key_row, generate_api_key, h]
    decide
  · exact fun now L row? h => check_rate_limit_nonpos now L row? h
  · intro sha table rl_row now k key_data hver hlim
    have hk : ¬ k = "" := by
      intro he
      rw [he] at hver
      simp [verify_api_key] at hver
    simp only [get_current_key, if_neg hk, hver,
      check_rate_limit_nonpos now key_data.rate_limit rl_row hlim]
    simp

/-- C3 witness: a concrete table with one active free-tier key of rate limit
0 — the first request with a matching key is rejected with 429
RATE_LIMIT_EXCEEDED and the counter row stays absent. -/
theorem C3_witness :
    get_current_key (fun _ => "h1") [⟨"h1", "pytest", "free", 0, true, none⟩]
        none 0 (some "wssi-free-key") =
      (Except.error ⟨429, "RATE_LIMIT_EXCEEDED"⟩, none) := by
  exact C3_free_tier_first_request_rejected.2.2.2.2 (fun _ => "h1")
    [⟨"h1", "pytest", "free", 0, true, none⟩] none 0 "wssi-free-key"
    ⟨"h1", "pytest", "free", 0, true, none⟩ (by decide) (by decide)

lemma filter_keeps_front (t d : List BriefRelease)
    (hdisj : ∀ a ∈ t, ∀ b ∈ d, b.release_id ≠ a.release_id) :
    (t ++ d).filter (fun r => d.all (fun s => s.release_id ≠ r.release_id)) = t := by
  rw [List.filter_append]
  have h1 : t.filter (fun r => d.all (fun s => s.release_id ≠ r.release_id)) = t := by
    rw [List.filter_eq_self]
    intro a ha
    rw [List.all_eq_true]
    intro s hs
    simp only [decide_eq_true_eq]
    exact hdisj a ha s hs
  have h2 : d.filter (fun r => d.all (fun s => s.release_id ≠ r.release_id)) = [] := by
    rw [List.filter_eq_nil_iff]
    intro a ha hall
    have := List.all_eq_true.mp hall a ha
    simp at this
  rw [h1, h2, List.append_nil]

/-- C6: after retention enforcement on the query result (rows ordered by
`published_at` descending, release ids unique), the table is exactly the
newest `max_archive_releases` rows, hence holds at most that many rows; the
deleted rows are exactly the remainder (the oldest releases), and every
artifact file of a deleted release is gone from disk. -/
theorem C6_archive_retention (env : Option String) (rows : List BriefRelease)
    (disk : List String)
    (hsorted : rows.Pairwise (fun a b => b.published_at ≤ a.published_at))
    (hids : (rows.map BriefRelease.release_id).Nodup) :
    (enforce_archive_retention env rows disk).1 =
      rows.take (max_archive_releases env).toNat ∧
    (enforce_archive_retention env rows disk).1.length ≤
      (max_archive_releases env).toNat ∧
    rows = (enforce_archive_retention env rows disk).1 ++
      rows.drop (max_archive_releases env).toNat ∧
    (∀ p, p ∈ (rows.drop (max_archive_releases env).toNat).flatMap releaseArtifacts →
      p ∉ (enforce_archive_retention env rows disk).2) ∧
    (enforce_archive_retention env rows disk).2 =
      disk.filter (fun p =>
        p ∉ (rows.drop (max_archive_releases env).toNat).flatMap releaseArtifacts) := by
  have hdisj : ∀ a ∈ rows.take (max_archive_releases env).toNat,
      ∀ b ∈ rows.drop (max_archive_releases env).toNat,
      b.release_id ≠ a.release_id := by
    have hmap : rows.map BriefRelease.release_id =
        (rows.take (max_archive_releases env).toNat).map BriefRelease.release_id ++
        (rows.drop (max_archive_releases env).toNat).map BriefRelease.release_id := by
      rw [← List.map_append, List.take_append_drop]
    rw [hmap] at hids
    obtain ⟨-, -, hdj⟩ := List.nodup_append.mp hids
    intro a ha b hb heq
    exact hdj (List.mem_map_of_mem BriefRelease.release_id ha)
      (heq ▸ List.mem_map_of_mem BriefRelease.release_id hb)
  have key : (enforce_archive_retention env rows disk).1 =
      rows.take (max_archive_releases env).toNat := by
    show rows.filter _ = _
    calc rows.filter (fun r => (rows.drop (max_archive_releases env).toNat).all
          (fun s => s.release_id ≠ r.release_id))
        = ((rows.take (max_archive_releases env).toNat ++
            rows.drop (max_archive_releases env).toNat).filter
            (fun r => (rows.drop (max_archive_releases env).toNat).all
              (fun s => s.release_id ≠ r.release_id))) := by
          rw [List.take_append_drop]
      _ = rows.take (max_archive_releases env).toNat :=
          filter_keeps_front _ _ hdisj
  refine ⟨key, ?_, ?_, ?_, rfl⟩
  · rw [key]
    exact List.length_take_le _ _
  · rw [key, List.take_append_drop]
  · intro p hp hmem
    have := (List.mem_filter.mp hmem).2
    simp only [decide_eq_true_eq] at this
    exact this hp

/-- C6 rows for the witness: eleven releases, newest first, with distinct ids
and one artifact file each. -/
def c6Rows : List BriefRelease :=
  (List.range 11).map (fun i =>
    { release_id := toString i, published_at := 99 - i,
      free_html_path := some ("f" ++ toString i), paid_html_path := none,
      free_json_path := none, paid_json_path := none })

def c6Disk : List String := ["f10", "keepme"]

/-- C6 witness: with a cap of 10 and eleven releases, the table keeps the
newest ten and the artifact file of the dropped oldest release is removed
from disk. -/
theorem C6_witness :
    (enforce_archive_retention (some "10") c6Rows c6Disk).1 =
      c6Rows.take (max_archive_releases (some "10")).toNat ∧
    "f10" ∉ (enforce_archive_retention (some "10") c6Rows c6Disk).2 := by
  have h := C6_archive_retention (some "10") c6Rows c6Disk (by decide) (by decide)
  exact ⟨h.1, h.2.2.2.1 "f10" (by decide)⟩

/-- C8 hash stand-in: maps the empty string to the SHA-256 hex digest of the
empty input and any other string to a tagged image. -/
def c8Sha : String → String := fun s =>
  if s = "" then "e3b0c44298fc1c149afbf4c8996fb92427ae41e4649b934ca495991b7852b855"
  else s ++ "#sha256"

/-- C8 stored row whose key_hash is the digest of the empty string. -/
def c8Row : ApiKeyRow :=
  { key_hash := "e3b0c44298fc1c149afbf4c8996fb92427ae41e4649b934ca495991b7852b855",
    name := "legacy", tier := "basic", rate_limit := 1000,
    is_active := true, expires_at := none }

/-- C8 counterexample: the table contains an active, unexpired row whose
key_hash equals the digest of the empty key, yet `verify_api_key` of the
empty key returns no record (the `if not api_key` guard fires first), so the
claimed iff fails as stated. -/
theorem C8_counterexample :
    verify_api_key c8Sha [c8Row] 0 "" = none ∧
    c8Row ∈ [c8Row] ∧
    keyRowMatches (c8Sha "") 0 c8Row = true := by
  refine ⟨rfl, by simp, by decide⟩

/-- C8 (amended): for a nonempty key the lookup succeeds iff the table has a
row whose key_hash equals the digest of the key, active and not expired (the
empty key is always refused); and the row stored by key issuance is built
from the digest of the issued key alone — the plaintext key is not stored. -/
theorem C8_verify_matches_hashed_row (sha : String → String)
    (table : List ApiKeyRow) (now : ℕ) (k : String) :
    ((∃ r, verify_api_key sha table now k = some r) ↔
      (k ≠ "" ∧ ∃ r ∈ table, keyRowMatches (sha k) now r = true)) ∧
    (∀ r, verify_api_key sha table now k = some r →
      r ∈ table ∧ keyRowMatches (sha k) now r = true) ∧
    (∀ name tier token,
      (create_or_update_api_key sha name tier token).2 =
        issued_key_row (sha (create_or_update_api_key sha name tier token).1)
          name (normalize_tier (some tier))) := by
  refine ⟨?_, ?_, fun name tier token => rfl⟩
  · by_cases hk : k = ""
    · subst hk
      simp [verify_api_key]
    · simp only [verify_api_key, if_neg hk]
      constructor
      · rintro ⟨r, hr⟩
        exact ⟨hk, r, List.mem_of_find?_eq_some hr, List.find?_some hr⟩
      · rintro ⟨-, r, hr, hmatch⟩
        have : (table.find? (keyRowMatches (sha k) now)).isSome :=
          List.find?_isSome.mpr ⟨r, hr, hmatch⟩
        exact Option.isSome_iff_exists.mp this
  · intro r hr
    by_cases hk : k = ""
    · subst hk
      simp [verify_api_key] at hr
    · simp only [verify_api_key, if_neg hk] at hr
      exact ⟨List.mem_of_find?_eq_some hr, List.find?_some hr⟩

/-- C8 witness row: digest of the key "k" under `c8Sha`, expiring at time 5. -/
def c8Row2 : ApiKeyRow :=
  { key_hash := "k#sha256", name := "pytest", tier := "basic",
    rate_limit := 1000, is_active := true, expires_at := some 5 }

/-- C8 witness: a concrete successful lookup before expiry returns a row of
the table matching the digest of the presented key. -/
theorem C8_witness :
    c8Row2 ∈ [c8Row2] ∧ keyRowMatches (c8Sha "k") 3 c8Row2 = true := by
  exact (C8_verify_matches_hashed_row c8Sha [c8Row2] 3 "k").2.1 c8Row2 (by decide)

/-- C9: `load_json_candidates` returns the parsed content of the first
candidate path that exists (later fallback paths are not consulted), and
fails with HTTP 503 DATA_UNAVAILABLE when no candidate exists. -/
theorem C9_load_json_candidates_first_existing (exists_ : String → Bool)
    (content : String → Json) (paths : List String) :
    (∀ p, paths.find? exists_ = some p →
      load_json_candidates exists_ content paths = Except.ok (content p)) ∧
    ((∀ p ∈ paths, exists_ p = false) →
      load_json_candidates exists_ content paths =
        Except.error ⟨503, "DATA_UNAVAILABLE"⟩) := by
  induction paths with
  | nil =>
    constructor
    · intro p h
      simp at h
    · intro _
      rfl
  | cons q rest ih =>
    constructor
    · intro p hp
      by_cases hq : exists_ q = true
      · rw [List.find?_cons_of_pos _ hq] at hp
        obtain rfl := Option.some_inj.mp hp
        simp [load_json_candidates, hq]
      · rw [List.find?_cons_of_neg _ (by simpa using hq)] at hp
        simp only [load_json_candidates, if_neg hq]
        exact ih.1 p hp
    · intro hall
      have hq : exists_ q = false := hall q (by simp)
      simp only [load_json_candidates, if_neg (by simp [hq] : ¬ exists_ q = true)]
      exact ih.2 (fun p hp => hall p (by simp [hp]))

/-- C9 witness: with only the middle candidate existing, the loader returns
its parsed content. -/
theorem C9_witness :
    load_json_candidates (fun p => p == "b") Json.str ["a", "b", "c"] =
      Except.ok (Json.str "b") := by
  exact (C9_load_json_candidates_first_existing (fun p => p == "b") Json.str
    ["a", "b", "c"]).1 "b" (by decide)

lemma roundTo_two_bounds (y : ℚ) (h0 : 0 ≤ y) (h100 : y ≤ 100) :
    0 ≤ roundTo 2 y ∧ roundTo 2 y ≤ 100 := by
  unfold roundTo
  have h1 : (0 : ℤ) ≤ round (y * 10 ^ 2) := by
    rw [round_eq]
    refine Int.le_floor.mpr ?_
    push_cast
    nlinarith
  have h2 : round (y * 10 ^ 2) ≤ 10000 := by
    rw [round_eq]
    have hlt : y * 10 ^ 2 + 1 / 2 < ((10001 : ℤ) : ℚ) := by
      push_cast
      nlinarith
    have := Int.floor_lt.mpr hlt
    omega
  constructor
  · refine div_nonneg ?_ (by norm_num)
    exact_mod_cast h1
  · rw [div_le_iff₀ (by norm_num : (0 : ℚ) < 10 ^ 2)]
    have : ((round (y * 10 ^ 2) : ℤ) : ℚ) ≤ ((10000 : ℤ) : ℚ) := by
      exact_mod_cast h2
    calc ((round (y * 10 ^ 2) : ℤ) : ℚ) ≤ ((10000 : ℤ) : ℚ) := this
      _ = 100 * 10 ^ 2 := by norm_num

/-- C10: the synthetic fallback response is labelled "synthetic-fallback",
has exactly `max 1 days` daily entries ending at today (entry `j` carries the
date `today - (N - 1 - j)`), reports `count` equal to the number of entries,
and every synthetic `wssi_score` lies in `[0, 100]`. -/
theorem C10_synthetic_history (days : ℤ) (current : ℚ) (today : ℤ) :
    (get_wssi_history_fallback days current today).source = "synthetic-fallback" ∧
    (get_wssi_history_fallback days current today).history.length =
      (max 1 days).toNat ∧
    (get_wssi_history_fallback days current today).count =
      (get_wssi_history_fallback days current today).history.length ∧
    ((get_wssi_history_fallback days current today).history.getLast?).map
      HistoryEntry.date = some today ∧
    (∀ j, j < (max 1 days).toNat →
      ((get_wssi_history_fallback days current today).history.getD j
        ⟨0, 0, 0⟩).date = today - (((max 1 days).toNat - 1 - j : ℕ) : ℤ)) ∧
    (∀ e ∈ (get_wssi_history_fallback days current today).history,
      0 ≤ e.wssi_score ∧ e.wssi_score ≤ 100) := by
  have hN : 1 ≤ (max 1 days).toNat := by omega
  refine ⟨rfl, ?_, rfl, ?_, ?_, ?_⟩
  · simp [get_wssi_history_fallback]
  · have hlen : (get_wssi_history_fallback days current today).history.length =
        (max 1 days).toNat := by simp [get_wssi_history_fallback]
    rw [List.getLast?_eq_getElem?, hlen]
    simp only [get_wssi_history_fallback]
    rw [List.getElem?_map, List.getElem?_range (by omega)]
    simp [syntheticEntry, Nat.sub_self]
  · intro j hj
    simp only [get_wssi_history_fallback]
    rw [List.getD_eq_getElem?_getD, List.getElem?_map, List.getElem?_range hj]
    simp [syntheticEntry]
  · intro e he
    simp only [get_wssi_history_fallback, List.mem_map, List.mem_range] at he
    obtain ⟨j, -, rfl⟩ := he
    have h0 : 0 ≤ max 0 (min 100 (50 + roundTo 4 (current +
        ((((max 1 days).toNat - 1 - j : ℕ) % 7 : ℤ) - 3) * (1/10 : ℚ) +
        ((((max 1 days).toNat - 1 - j : ℕ) % 3 : ℕ) : ℚ) * (1/20 : ℚ)) * 20)) :=
      le_max_left _ _
    refine ?_
    unfold syntheticEntry
    refine roundTo_two_bounds _ (le_max_left _ _) ?_
    exact max_le (by norm_num) (min_le_left _ _)

/-- C10 witness: three days of synthetic history at a concrete input — three
entries, and the first entry is dated two days before today. -/
theorem C10_witness :
    (get_wssi_history_fallback 3 5 100).history.length = (max 1 (3 : ℤ)).toNat ∧
    ((get_wssi_history_fallback 3 5 100).history.getD 0 ⟨0, 0, 0⟩).date =
      100 - ((((max 1 (3 : ℤ)).toNat - 1 - 0 : ℕ)) : ℤ) := by
  have h := C10_synthetic_history 3 5 100
  exact ⟨h.2.1, h.2.2.2.2.1 0 (by decide)⟩

end WSSI
